import Mathlib

set_option maxRecDepth 10000

/-! # Verification of the UNI-T thermal image tool (`src/uniTThermalImage.py`)

Shallow embedding conventions:

* A byte buffer is a `List ℕ` (entries are below 256 in any real file; where a
  proof needs this it is a stated hypothesis).
* Python float arithmetic over the embedded data is modelled by exact rational
  arithmetic on `ℚ`.  Every decision the source takes on such values (its
  `round` calls on `int/int` quotients) is never within double-rounding
  distance of a tie, so the exact model agrees with the float computation.
* A Python `IndexError` on an out-of-range byte read is modelled by `Option`
  (`none` = the operation raises), and `ValueError`-style failures by an
  explicit error value next to the unchanged state.
* `numpy` arrays are modelled as (lists of) lists; vectorised numpy
  expressions become per-pixel functions mapped over the matrix.
-/

/-- Python `round` on an exact rational: round half to even ("banker's
rounding"), as used by `round(...)` in the palette conversions. -/
def pyRound (q : ℚ) : ℤ :=
  if q - ⌊q⌋ < 1/2 then ⌊q⌋
  else if 1/2 < q - ⌊q⌋ then ⌊q⌋ + 1
  else if 2 ∣ ⌊q⌋ then ⌊q⌋ else ⌊q⌋ + 1

/-- Computational twin of `pyRound ((m : ℚ) / n)` for natural `m`, positive
natural `n`, in pure natural arithmetic (for kernel evaluation in `decide`
proofs).  The agreement with `pyRound` is the theorem
`pyRound_natCast_div` below. -/
def pyRoundDivN (m n : ℕ) : ℕ :=
  if 2 * (m % n) < n then m / n
  else if n < 2 * (m % n) then m / n + 1
  else if 2 ∣ m / n then m / n else m / n + 1

/-- Unsigned 16-bit little-endian read:
`file_bytes[ini] | (file_bytes[ini + 1] << 8)` from `__read_int16`.
`none` models Python's `IndexError` on an out-of-range index. -/
def read_u16 (bs : List ℕ) (ini : ℕ) : Option ℕ := do
  let b0 ← bs[ini]?
  let b1 ← bs[ini + 1]?
  pure (b0 ||| (b1 <<< 8))

/-- The two's-complement step of `__read_int16`:
`if int_return & 0x8000: int_return = ~(int_return ^ 0xFFFF)`
(Python `~x` is `-(x + 1)`). -/
def toSigned16 (u : ℕ) : ℤ :=
  if u &&& 0x8000 ≠ 0 then -(((u ^^^ 0xFFFF : ℕ) : ℤ) + 1) else (u : ℤ)

/-- `__read_int16`. -/
def read_int16 (bs : List ℕ) (ini : ℕ) : Option ℤ :=
  (read_u16 bs ini).map toSigned16

/-- Unsigned 32-bit little-endian read from `__read_int32`. -/
def read_u32 (bs : List ℕ) (ini : ℕ) : Option ℕ := do
  let b0 ← bs[ini]?
  let b1 ← bs[ini + 1]?
  let b2 ← bs[ini + 2]?
  let b3 ← bs[ini + 3]?
  pure (b0 ||| (b1 <<< 8) ||| (b2 <<< 16) ||| (b3 <<< 24))

/-- The two's-complement step of `__read_int32`. -/
def toSigned32 (u : ℕ) : ℤ :=
  if u &&& 0x80000000 ≠ 0 then -(((u ^^^ 0xFFFFFFFF : ℕ) : ℤ) + 1) else (u : ℤ)

/-- `__read_int32`. -/
def read_int32 (bs : List ℕ) (ini : ℕ) : Option ℤ :=
  (read_u32 bs ini).map toSigned32

/-- The `bmp_header` dictionary filled by `__get_bmp_header`. -/
structure BmpHeader where
  file_size : ℤ
  reserved_1 : ℤ
  reserved_2 : ℤ
  data_start_byte : ℤ
  bmp_header_size : ℤ
  img_width_px : ℤ
  img_height_px : ℤ
  plane_num : ℤ
  bits_per_px : ℤ
  compression : ℤ
  img_size : ℤ
  horizontal_res : ℤ
  vertical_res : ℤ
  color_table_size : ℤ
  important_colors : ℤ
deriving Repr, DecidableEq

/-- `__get_bmp_header`: fifteen little-endian reads at fixed offsets.  The
source performs no length or magic check (`# TODO: Check internal file
format`); the only failure mode is an out-of-range read (`none`). -/
def get_bmp_header (bs : List ℕ) : Option BmpHeader := do
  let file_size ← read_int32 bs 2
  let reserved_1 ← read_int16 bs 6
  let reserved_2 ← read_int16 bs 8
  let data_start_byte ← read_int32 bs 10
  let bmp_header_size ← read_int32 bs 14
  let img_width_px ← read_int32 bs 18
  let img_height_px ← read_int32 bs 22
  let plane_num ← read_int16 bs 26
  let bits_per_px ← read_int16 bs 28
  let compression ← read_int32 bs 30
  let img_size ← read_int32 bs 34
  let horizontal_res ← read_int32 bs 38
  let vertical_res ← read_int32 bs 42
  let color_table_size ← read_int32 bs 46
  let important_colors ← read_int32 bs 50
  pure { file_size, reserved_1, reserved_2, data_start_byte, bmp_header_size,
         img_width_px, img_height_px, plane_num, bits_per_px, compression,
         img_size, horizontal_res, vertical_res, color_table_size,
         important_colors }

/-- `numpy.reshape((h, w))` of a flat list (valid when the length is `h * w`;
the caller checks this, mirroring numpy's `ValueError` otherwise). -/
def reshapeRows (h w : ℕ) (l : List ℕ) : List (List ℕ) :=
  match h with
  | 0 => []
  | h' + 1 => l.take w :: reshapeRows h' w (l.drop w)

/-- `__extract_grayscale_img`: slice `file_bytes[file_size : file_size + w*h]`
and reshape to `(h, w)`.  `none` models numpy's reshape `ValueError` when the
slice is shorter than `w * h`.  The `Int.toNat` casts are justified by the
nonnegativity of the header fields of any well-formed file (hypotheses of the
theorems below); Python negative-index slicing never occurs there. -/
def extract_grayscale_img (bs : List ℕ) (hd : BmpHeader) : Option (List (List ℕ)) :=
  let w := hd.img_width_px.toNat
  let h := hd.img_height_px.toNat
  let fs := hd.file_size.toNat
  let flat := (bs.drop fs).take (w * h)
  if flat.length = w * h then some (reshapeRows h w flat) else none

/-- 5/6-bit channel to 8 bits from `__extract_palette`:
`round(color_raw * 0xFF / maxc)` (`maxc` is `0x1F` or `0x3F`). -/
def chanTo8 (c maxc : ℕ) : ℕ :=
  (pyRound (((c * 255 : ℕ) : ℚ) / (maxc : ℚ))).toNat

/-- 8-bit channel back to 5/6 bits from `__serialize_palette`:
`round(color * maxc / 0xFF)`. -/
def chanFrom8 (c maxc : ℕ) : ℕ :=
  (pyRound (((c * maxc : ℕ) : ℚ) / (255 : ℚ))).toNat

/-- One palette entry of `__extract_palette`: split a packed 5-6-5 16-bit
color and widen each channel to 8 bits.  The source masks the *signed* int16;
masking with sub-`2 ^ 16` masks only sees the low 16 bits, which in Python's
two's complement are those of the unsigned value, so this is stated on the
unsigned 16-bit value. -/
def decode565 (color_raw : ℕ) : List ℕ :=
  let color_r_raw := (color_raw &&& 0xF800) >>> 11
  let color_g_raw := (color_raw &&& 0x7E0) >>> 5
  let color_b_raw := color_raw &&& 0x1F
  [chanTo8 color_r_raw 31, chanTo8 color_g_raw 63, chanTo8 color_b_raw 31]

/-- One palette entry of `__serialize_palette`: narrow each 8-bit channel and
pack as `(r << 11) | (g << 5) | b`. -/
def encode565 (color : List ℕ) : ℕ :=
  let color_r := chanFrom8 (color.getD 0 0) 31
  let color_g := chanFrom8 (color.getD 1 0) 63
  let color_b := chanFrom8 (color.getD 2 0) 31
  color_r <<< 11 ||| color_g <<< 5 ||| color_b

/-- `__extract_palette`: 256 entries, 2 bytes each, starting at `off`
(the loop `for i in range(off, off + 512, 2)`). -/
def extract_palette (bs : List ℕ) (off : ℕ) : Option (List (List ℕ)) :=
  (List.range 256).mapM fun k => (read_u16 bs (off + 2 * k)).map decode565

/-- The telemetry block extracted by `__extract_temp_data`. -/
structure Telemetry where
  temp_units : Char
  temp_max : ℚ
  temp_min : ℚ
  temp_center : ℚ
  emissivity : ℚ
  temp_min_pos_w : ℤ
  temp_min_pos_h : ℤ
  temp_max_pos_w : ℤ
  temp_max_pos_h : ℤ
  temp_center_pos_w : ℤ
  temp_center_pos_h : ℤ
deriving Repr, DecidableEq

/-- `__extract_temp_data`: fixed-layout 26-byte telemetry block at `off`. -/
def extract_temp_data (bs : List ℕ) (off : ℕ) : Option Telemetry := do
  let units_byte ← bs[off]?
  let tmax ← read_int16 bs (off + 1)
  let tmin ← read_int16 bs (off + 3)
  let tcen ← read_int16 bs (off + 7)
  let emis ← bs[off + 9]?
  let minw ← read_int16 bs (off + 14)
  let minh ← read_int16 bs (off + 16)
  let maxw ← read_int16 bs (off + 18)
  let maxh ← read_int16 bs (off + 20)
  let cenw ← read_int16 bs (off + 22)
  let cenh ← read_int16 bs (off + 24)
  pure { temp_units := if units_byte = 0 then 'C' else 'F'
         temp_max := (tmax : ℚ) / 10
         temp_min := (tmin : ℚ) / 10
         temp_center := (tcen : ℚ) / 10
         emissivity := (emis : ℚ) / 100
         temp_min_pos_w := minw
         temp_min_pos_h := minh
         temp_max_pos_w := maxw
         temp_max_pos_h := maxh
         temp_center_pos_w := cenw
         temp_center_pos_h := cenh }

/-- `__extract_file_time`: a trailing 4-byte timestamp is read only when the
offset is not already the end of the buffer.  Outer `none` models the
`IndexError` when fewer than 4 bytes remain; inner value is the optional
timestamp. -/
def extract_file_time (bs : List ℕ) (off : ℕ) : Option (Option ℤ) :=
  if off ≠ bs.length then (read_int32 bs off).map some
  else some none

/-- The data `init_from_image` decodes out of the file bytes. -/
structure Decoded where
  bmp_header : BmpHeader
  raw_img_np : List (List ℕ)
  palette_rgb_np : List (List ℕ)
  telemetry : Telemetry
  img_timestamp : Option ℤ
deriving Repr, DecidableEq

/-- The decoding pipeline of `init_from_image` (header, grayscale frame,
palette, telemetry, optional trailing timestamp), minus the filesystem steps
and the derived-matrix recomputation, which are modelled separately. -/
def init_from_image (bs : List ℕ) : Option Decoded := do
  let hd ← get_bmp_header bs
  let gray ← extract_grayscale_img bs hd
  let off1 := hd.file_size.toNat + hd.img_width_px.toNat * hd.img_height_px.toNat
  let pal ← extract_palette bs off1
  let tel ← extract_temp_data bs (off1 + 512)
  let ts ← extract_file_time bs (off1 + 512 + 26)
  pure { bmp_header := hd, raw_img_np := gray, palette_rgb_np := pal,
         telemetry := tel, img_timestamp := ts }

/-- The palette lookup `palette_rgb_np[g]` of `__set_rgb_image` (numpy direct
indexing; in range whenever `g < 256` and the palette has 256 entries). -/
def paletteLookup (pal : List (List ℕ)) (g : ℕ) : List ℕ :=
  pal.getD g []

/-- `__set_rgb_image` on one grayscale matrix: `palette_rgb_np[img]`. -/
def apply_palette (pal : List (List ℕ)) (img : List (List ℕ)) :
    List (List (List ℕ)) :=
  img.map (List.map (paletteLookup pal))

/-- One pixel of `__set_raw_temp_matrix`:
`temp_min + (temp_max - temp_min) * (g / 254.0)`, in the exact-rational model
of the float64 expression.  The float64 evaluation of the same expression can
differ from the exact value by the final roundings; where that gap matters
(the `g = 254` endpoint of claim C2) it is exhibited separately by carrying
the float64 arithmetic step by step with `fl64`. -/
def rawTempPx (tmin tmax : ℚ) (g : ℕ) : ℚ :=
  tmin + (tmax - tmin) * ((g : ℚ) / 254)

/-- `__set_raw_temp_matrix` (vectorised over the whole matrix). -/
def set_raw_temp_matrix (tmin tmax : ℚ) (img : List (List ℕ)) : List (List ℚ) :=
  img.map (List.map (rawTempPx tmin tmax))

/-- One pixel of `__set_fix_temp_matrix`.  The source initialises with zeros,
writes the `mask_high` pixels (`g >= center_gray` and `g != 254`), then the
`mask_low` pixels (`g < center_gray` and `g != 0`), and finally overrides
`g == 0` to `temp_min` and `g == 254` to `temp_max`; since later writes win
and the two masks are disjoint, the result is this if-chain.  One corner of
the float arithmetic has no exact-rational value: when `center_gray = 254`
the high branch divides by zero (`254.0 - center_gray`) and the program
stores a non-finite float64 there (`+inf`/`-inf` depending on the sign of
`temp_max - temp_center`, NaN when they are equal); that pixel — reachable
only for the undefined sample `g = 255`, since `g = 254` is overridden —
is modelled by the unconstrained parameter `nonfinite`.  The low branch
never divides by zero: its mask `g < center_gray` is empty when
`center_gray = 0`. -/
def fixTempPx (nonfinite : ℚ) (tmin tmax tcenter : ℚ) (center_gray : ℕ)
    (g : ℕ) : ℚ :=
  if g = 0 then tmin
  else if g = 254 then tmax
  else if center_gray ≤ g then
    if center_gray = 254 then nonfinite
    else tcenter + (tmax - tcenter) * (((g : ℚ) - (center_gray : ℚ)) / (254 - (center_gray : ℚ)))
  else tmin + (tcenter - tmin) * ((g : ℚ) / (center_gray : ℚ))

/-- `__set_fix_temp_matrix`: `center_gray` is the raw sample at the
telemetry's center-pixel position `[temp_center_pos_h, temp_center_pos_w]`
(`nonfinite` as in `fixTempPx`). -/
def set_fix_temp_matrix (nonfinite : ℚ) (tmin tmax tcenter : ℚ)
    (img : List (List ℕ)) (center_pos_h center_pos_w : ℕ) : List (List ℚ) :=
  let center_gray := (img.getD center_pos_h []).getD center_pos_w 0
  img.map (List.map (fixTempPx nonfinite tmin tmax tcenter center_gray))

/-- One pixel of `set_temp_range`:
`np.clip(255 * (t - t_min) / (t_max - t_min), 0, 255)` followed by the
`astype(np.uint8)` cast, which TRUNCATES the (after clipping, nonnegative)
float toward zero — it does not round.  The float64 division by the zero
denominator `t_max = t_min` is modelled case by case, as IEEE-754 defines
it: a positive numerator (`t > t_min`) gives `+inf`, which `np.clip` maps
to 255; a negative numerator gives `-inf`, clipped to 0; a zero numerator
(`t = t_min`) gives NaN, which passes through the clip and whose
`astype(np.uint8)` cast is platform-defined — that byte is the
unconstrained parameter `undef` (the cast yields a `uint8`, so facts about
the program quantify over `undef ≤ 255`). -/
def remapPx (undef : ℕ) (t_min t_max t : ℚ) : ℕ :=
  if t_max - t_min = 0 then
    if t_min < t then 255
    else if t < t_min then 0
    else undef
  else (⌊min 255 (max 0 (255 * (t - t_min) / (t_max - t_min)))⌋).toNat

/-- Modelled from the spec (§4.4 range remap), for comparison with the code's
`remapPx`: "`g' = clamp(round(255 * (temp - tMin) / (tMax - tMin)), 0, 255)`,
cast to 8-bit". -/
def remapPxSpec (t_min t_max t : ℚ) : ℕ :=
  (min 255 (max 0 (round (255 * (t - t_min) / (t_max - t_min)) : ℤ))).toNat

/-- Rounding of an exact rational to the IEEE-754 binary64 grid whose unit
in the last place is `u`, ties to even (`pyRound` is round-half-to-even,
the hardware rounding mode): this is the correctly rounded float64 result
of an operation whose exact value is `q` whenever `2^52 * u ≤ |q| < 2^53 * u`.
It carries the program's float64 arithmetic step by step on concrete
inputs, where the exact-rational model of a whole expression would hide
the intermediate roundings. -/
def fl64 (u : ℚ) (q : ℚ) : ℚ :=
  (pyRound (q / u) : ℚ) * u

/-- The mutable state of a `UniTThermalImage` object that the post-load
operations (`set_palette`, `set_temp_range`, `__set_rgb_image`) touch. -/
structure UTState where
  palette_rgb_np : List (List ℕ)
  raw_img_np : List (List ℕ)
  fix_img_np : Option (List (List ℕ))
  raw_img_rgb_np : List (List (List ℕ))
  fix_img_rgb_np : Option (List (List (List ℕ)))
  raw_temp_np : List (List ℚ)
  fix_temp_np : Option (List (List ℚ))
  temp_units : Char
  temp_max : ℚ
  temp_min : ℚ
  temp_center : ℚ
  emissivity : ℚ
  temp_min_ow : ℚ
  temp_max_ow : ℚ
  use_fix : Bool
  palette_updated : Bool

/-- The `__set_rgb_image` method: recompute `raw_img_rgb_np`, and
`fix_img_rgb_np` when `fix_img_np is not None`. -/
def set_rgb_image (st : UTState) : UTState :=
  { st with
    raw_img_rgb_np := apply_palette st.palette_rgb_np st.raw_img_np
    fix_img_rgb_np :=
      match st.fix_img_np with
      | some fimg => some (apply_palette st.palette_rgb_np fimg)
      | none => st.fix_img_rgb_np }

/-- `set_palette`.  The result pairs the (possibly mutated) object state with
`some message` when the call raises `ValueError` (in which case the state is
the caller's unchanged object, since the raise happens before any write). -/
def set_palette (st : UTState) (palette_in_np : Option (List (List ℕ)))
    (reverse : Bool) : UTState × Option String :=
  match palette_in_np with
  | some p =>
    if ¬(p.length = 256 ∧ p.all fun row => row.length = 3) then
      (st, some "Invalid shape of palette. Expected (256,3)")
    else
      let st1 := { st with palette_rgb_np := p }
      let st2 := if reverse then
          { st1 with palette_rgb_np := st1.palette_rgb_np.reverse }
        else st1
      ({ set_rgb_image st2 with palette_updated := true }, none)
  | none =>
    let st2 := if reverse then
        { st with palette_rgb_np := st.palette_rgb_np.reverse }
      else st
    ({ set_rgb_image st2 with palette_updated := true }, none)

/-- `set_temp_range`: store the override range, recompute both display
grayscale rasters from the current temperature matrices, re-render.  The
source performs no comparison of `t_min` and `t_max` and raises nothing
(numpy emits at most a warning on a zero denominator); `undef` is the
platform-defined byte of `remapPx`, reached only when `t_min = t_max` at a
pixel whose temperature is exactly `t_min`. -/
def set_temp_range (st : UTState) (t_min t_max : ℚ) (undef : ℕ) : UTState :=
  let st1 := { st with
    temp_min_ow := t_min
    temp_max_ow := t_max
    raw_img_np := st.raw_temp_np.map (List.map (remapPx undef t_min t_max)) }
  let st2 := if st.use_fix then
      { st1 with
        fix_img_np := st.fix_temp_np.map fun m => m.map (List.map (remapPx undef t_min t_max)) }
    else st1
  set_rgb_image st2

/-- The BGR byte stream written by the double loop of `export_bmp`: rows of
the rendered image from the last to the first (bitmap row order), each pixel
as `[B, G, R]`, advancing 3 bytes per pixel (`bits_per_px = 24`). -/
def bgrStream (img : List (List (List ℕ))) : List ℕ :=
  img.reverse.flatMap fun row =>
    row.flatMap fun px => [px.getD 2 0, px.getD 1 0, px.getD 0 0]

/-- Elementwise in-place assignment `output_bytes[start + k] = vals[k]` for
`k < vals.length` (its list form; coincides with the Python loop whenever
`start + vals.length ≤ bs.length`, which the well-formedness hypotheses
provide). -/
def overwrite (bs : List ℕ) (start : ℕ) (vals : List ℕ) : List ℕ :=
  bs.take start ++ vals ++ bs.drop (start + vals.length)

/-- `__serialize_palette`: write the 512-byte packed palette at its original
offset `file_size + w * h`, little-endian 2 bytes per entry. -/
def serialize_palette (output : List ℕ) (off : ℕ) (pal : List (List ℕ)) :
    List ℕ :=
  overwrite output off (pal.flatMap fun color =>
    [encode565 color &&& 0x00FF, (encode565 color &&& 0xFF00) >>> 8])

/-- `__serialize_file_time`: 4 little-endian bytes of the capture epoch
appended at the end. -/
def tsBytes (timestamp : ℕ) : List ℕ :=
  [timestamp &&& 0xFF, (timestamp >>> 8) &&& 0xFF, (timestamp >>> 16) &&& 0xFF,
   (timestamp >>> 24) &&& 0xFF]

/-- `export_bmp`: overwrite the pixel region (bottom-to-top rows of the
selected rendered image, BGR), re-serialize the palette only when it was
modified, then append the 4-byte timestamp trailer.  `export_img_rgb` is the
caller-selected rendering (`raw_img_rgb_np` or `fix_img_rgb_np`);
`timestamp` is the capture epoch (external input in the source). -/
def export_bmp (bs : List ℕ) (hd : BmpHeader)
    (export_img_rgb : List (List (List ℕ))) (pal : List (List ℕ))
    (palette_updated : Bool) (timestamp : ℕ) : List ℕ :=
  let base := overwrite bs hd.data_start_byte.toNat (bgrStream export_img_rgb)
  let base2 := if palette_updated then
      serialize_palette base
        (hd.file_size.toNat + hd.img_width_px.toNat * hd.img_height_px.toNat) pal
    else base
  base2 ++ tsBytes timestamp

/-- Result of a region-of-interest extrema query. -/
structure RoiResult where
  temp_min : ℚ
  min_pos : ℕ × ℕ
  temp_max : ℚ
  max_pos : ℕ × ℕ
deriving Repr, DecidableEq

/-- Modelled from the spec: the ROI query (`get_roi_temps` is called from
`usageExample.py` but its implementation is not part of the sources under
verification).  Spec §4.6: scan the active temperature matrix restricted to
the rectangle; return min and max temperatures and their positions relative
to the rectangle's own origin; fail with `RangeError` if the rectangle is out
of the frame's bounds or degenerate (`rowStart >= rowEnd` or
`colStart >= colEnd`). -/
def getRoiExtrema (temp : List (List ℚ)) (rowStart rowEnd colStart colEnd : ℕ) :
    Except String RoiResult :=
  let rows := temp.length
  let cols := (temp.headD []).length
  if rowEnd > rows ∨ colEnd > cols ∨ rowStart ≥ rowEnd ∨ colStart ≥ colEnd then
    .error "RangeError"
  else
    let cells := (List.range (rowEnd - rowStart)).flatMap fun i =>
      (List.range (colEnd - colStart)).map fun j =>
        ((i, j), (temp.getD (rowStart + i) []).getD (colStart + j) 0)
    match cells with
    | [] => .error "RangeError"
    | c :: rest =>
      let mn := rest.foldl (fun a x => if x.2 < a.2 then x else a) c
      let mx := rest.foldl (fun a x => if a.2 < x.2 then x else a) c
      .ok ⟨mn.2, mn.1, mx.2, mx.1⟩

/-- A minimal well-formed camera-native demo file (1×1 pixel): 54-byte
header with `file_size = 57`, `data_start_byte = 54`, `width = height = 1`,
`bits_per_px = 24`; 3 pixel bytes; 1 grayscale byte; 512 palette bytes;
26 telemetry bytes; no timestamp trailer. -/
def demoFile : List ℕ :=
  [66, 77, 57, 0, 0, 0, 0, 0, 0, 0, 54, 0, 0, 0, 40, 0, 0, 0, 1, 0, 0, 0,
   1, 0, 0, 0, 1, 0, 24, 0, 0, 0, 0, 0, 3, 0, 0, 0, 0, 0, 0, 0, 0, 0, 0, 0,
   0, 0, 0, 0, 0, 0, 0, 0]
  ++ [10, 20, 30]
  ++ [7]
  ++ List.replicate 512 0
  ++ List.replicate 26 0

/-- The header `get_bmp_header` reads out of `demoFile`. -/
def demoHeader : BmpHeader :=
  { file_size := 57, reserved_1 := 0, reserved_2 := 0, data_start_byte := 54,
    bmp_header_size := 40, img_width_px := 1, img_height_px := 1,
    plane_num := 1, bits_per_px := 24, compression := 0, img_size := 3,
    horizontal_res := 0, vertical_res := 0, color_table_size := 0,
    important_colors := 0 }

/-- A small loaded state used to instantiate the stateful theorems. -/
def demoState : UTState :=
  { palette_rgb_np := List.replicate 256 [0, 0, 0]
    raw_img_np := [[0]]
    fix_img_np := some [[0]]
    raw_img_rgb_np := [[[0, 0, 0]]]
    fix_img_rgb_np := some [[[0, 0, 0]]]
    raw_temp_np := [[8/5]]
    fix_temp_np := some [[8/5]]
    temp_units := 'C'
    temp_max := 255
    temp_min := 0
    temp_center := 1
    emissivity := 95/100
    temp_min_ow := 0
    temp_max_ow := 255
    use_fix := true
    palette_updated := false }

/-- A small temperature matrix for the ROI query theorems. -/
def demoTemps : List (List ℚ) := [[3, 1], [4, 2]]

/-- A well-formed camera-native file: the header parses to `hd`; the header
fields used as offsets are nonnegative with the pixel data (3 bytes per
pixel, `bits_per_px = 24`) lying between the 54-byte header and the internal
data-start marker that the camera stores in the `file_size` field; and the
buffer ends exactly after the 26-byte telemetry block (no timestamp trailer:
camera-native). -/
def WellFormedNative (bs : List ℕ) (hd : BmpHeader) : Prop :=
  get_bmp_header bs = some hd ∧
  54 ≤ hd.data_start_byte.toNat ∧
  hd.bits_per_px = 24 ∧
  hd.data_start_byte.toNat +
      3 * (hd.img_width_px.toNat * hd.img_height_px.toNat) ≤ hd.file_size.toNat ∧
  bs.length = hd.file_size.toNat +
      hd.img_width_px.toNat * hd.img_height_px.toNat + 512 + 26

/-! ## Helper lemmas: exact rounding vs. its natural-number twin -/

theorem pyRound_natCast_div (m n : ℕ) (hn : 0 < n) :
    pyRound ((m : ℚ) / (n : ℚ)) = (pyRoundDivN m n : ℤ) := by
  have hnQ : (0 : ℚ) < (n : ℚ) := by exact_mod_cast hn
  have hfl : ⌊(m : ℚ) / (n : ℚ)⌋ = ((m / n : ℕ) : ℤ) := by
    rw [Rat.floor_natCast_div_natCast m n]
    exact (Int.ofNat_div m n).symm
  have key : ((m : ℚ)) = (n : ℚ) * ((m / n : ℕ) : ℚ) + ((m % n : ℕ) : ℚ) := by
    exact_mod_cast (Nat.div_add_mod m n).symm
  have hfr : (m : ℚ) / n - ((⌊(m : ℚ) / n⌋ : ℤ) : ℚ) = ((m % n : ℕ) : ℚ) / n := by
    rw [hfl, Int.cast_natCast]
    field_simp
    linarith [key]
  have c1 : ((m : ℚ) / n - ((⌊(m : ℚ) / n⌋ : ℤ) : ℚ) < 1/2) ↔ (2 * (m % n) < n) := by
    rw [hfr, div_lt_div_iff hnQ (by norm_num : (0:ℚ) < 2), one_mul]
    norm_cast
    omega
  have c2 : (1/2 < (m : ℚ) / n - ((⌊(m : ℚ) / n⌋ : ℤ) : ℚ)) ↔ (n < 2 * (m % n)) := by
    rw [hfr, div_lt_div_iff (by norm_num : (0:ℚ) < 2) hnQ, one_mul]
    norm_cast
    omega
  have c3 : ((2:ℤ) ∣ ⌊(m : ℚ) / n⌋) ↔ (2 ∣ m / n) := by
    rw [hfl]
    exact_mod_cast Iff.rfl
  unfold pyRound pyRoundDivN
  simp only [c1, c2, c3]
  simp only [hfl]
  split_ifs <;> push_cast <;> ring

theorem chanTo8_eq (c maxc : ℕ) (h : 0 < maxc) :
    chanTo8 c maxc = pyRoundDivN (c * 255) maxc := by
  unfold chanTo8
  rw [pyRound_natCast_div _ _ h, Int.toNat_natCast]

theorem chanFrom8_eq (c maxc : ℕ) :
    chanFrom8 c maxc = pyRoundDivN (c * maxc) 255 := by
  unfold chanFrom8
  rw [show (255 : ℚ) = ((255 : ℕ) : ℚ) from by norm_num,
    pyRound_natCast_div _ _ (by norm_num : (0:ℕ) < 255), Int.toNat_natCast]

theorem chan5_roundtrip (e : ℕ) (he : e < 32) :
    chanFrom8 (chanTo8 e 31) 31 = e := by
  rw [chanTo8_eq _ _ (by norm_num), chanFrom8_eq]
  revert he
  revert e
  decide

theorem chan6_roundtrip (e : ℕ) (he : e < 64) :
    chanFrom8 (chanTo8 e 63) 63 = e := by
  rw [chanTo8_eq _ _ (by norm_num), chanFrom8_eq]
  revert he
  revert e
  decide

/-! ## Helper lemmas: 5-6-5 bit packing -/

theorem testBit_ge {x k i : ℕ} (hx : x < 2 ^ k) (hk : k ≤ i) :
    x.testBit i = false :=
  Nat.testBit_lt_two_pow (lt_of_lt_of_le hx (Nat.pow_le_pow_right (by norm_num) hk))

theorem mask1F_low : ∀ i, i < 5 → Nat.testBit 0x1F i = true := by decide

theorem mask7E0_mid : ∀ i, i < 11 → 5 ≤ i → Nat.testBit 0x7E0 i = true := by decide

theorem maskF800_mid : ∀ i, i < 16 → 11 ≤ i → Nat.testBit 0xF800 i = true := by decide

theorem unpack_hi (r g b : ℕ) (hr : r < 32) (hg : g < 64) (hb : b < 32) :
    ((r <<< 11 ||| g <<< 5 ||| b) &&& 0xF800) >>> 11 = r := by
  have hgf : ∀ j, 6 ≤ j → g.testBit j = false := fun j hj => testBit_ge (by simpa using hg) hj
  have hbf : ∀ j, 5 ≤ j → b.testBit j = false := fun j hj => testBit_ge (by simpa using hb) hj
  have hrf : ∀ j, 5 ≤ j → r.testBit j = false := fun j hj => testBit_ge (by simpa using hr) hj
  apply Nat.eq_of_testBit_eq
  intro i
  simp only [Nat.testBit_shiftRight, Nat.testBit_and, Nat.testBit_or, Nat.testBit_shiftLeft]
  rcases lt_or_ge i 5 with hi | hi
  · rw [maskF800_mid (11 + i) (by omega) (by omega), Bool.and_true,
      hgf (11 + i - 5) (by omega), hbf (11 + i) (by omega),
      show 11 + i - 11 = i from by omega]
    simp [Nat.le_add_right]
  · rw [testBit_ge (x := 0xF800) (by norm_num) (show 16 ≤ 11 + i from by omega),
      Bool.and_false, hrf i hi]

theorem unpack_mid (r g b : ℕ) (_hr : r < 32) (hg : g < 64) (hb : b < 32) :
    ((r <<< 11 ||| g <<< 5 ||| b) &&& 0x7E0) >>> 5 = g := by
  have hgf : ∀ j, 6 ≤ j → g.testBit j = false := fun j hj => testBit_ge (by simpa using hg) hj
  have hbf : ∀ j, 5 ≤ j → b.testBit j = false := fun j hj => testBit_ge (by simpa using hb) hj
  apply Nat.eq_of_testBit_eq
  intro i
  simp only [Nat.testBit_shiftRight, Nat.testBit_and, Nat.testBit_or, Nat.testBit_shiftLeft]
  rcases lt_or_ge i 6 with hi | hi
  · rw [mask7E0_mid (5 + i) (by omega) (by omega), Bool.and_true,
      hbf (5 + i) (by omega), show 5 + i - 5 = i from by omega]
    have h11 : ¬ (11 ≤ 5 + i) := by omega
    simp [h11, Nat.le_add_right]
  · rw [testBit_ge (x := 0x7E0) (by norm_num) (show 11 ≤ 5 + i from by omega),
      Bool.and_false, hgf i hi]

theorem unpack_lo (r g b : ℕ) (_hr : r < 32) (_hg : g < 64) (hb : b < 32) :
    (r <<< 11 ||| g <<< 5 ||| b) &&& 0x1F = b := by
  have hbf : ∀ j, 5 ≤ j → b.testBit j = false := fun j hj => testBit_ge (by simpa using hb) hj
  apply Nat.eq_of_testBit_eq
  intro i
  simp only [Nat.testBit_and, Nat.testBit_or, Nat.testBit_shiftLeft]
  rcases lt_or_ge i 5 with hi | hi
  · rw [mask1F_low i (by omega), Bool.and_true]
    have h11 : ¬ (11 ≤ i) := by omega
    have h5 : ¬ (5 ≤ i) := by omega
    simp [h11, h5]
  · rw [testBit_ge (x := 0x1F) (by norm_num) (show 5 ≤ i from hi), Bool.and_false,
      hbf i hi]

theorem pack_unpack (u : ℕ) (hu : u < 65536) :
    ((u &&& 0xF800) >>> 11) <<< 11 ||| ((u &&& 0x7E0) >>> 5) <<< 5 ||| (u &&& 0x1F) = u := by
  have huf : ∀ j, 16 ≤ j → u.testBit j = false := fun j hj =>
    testBit_ge (by simpa using hu) hj
  apply Nat.eq_of_testBit_eq
  intro i
  simp only [Nat.testBit_shiftRight, Nat.testBit_and, Nat.testBit_or, Nat.testBit_shiftLeft]
  rcases lt_or_ge i 5 with hi | hi
  · have h11 : ¬ (11 ≤ i) := by omega
    have h5 : ¬ (5 ≤ i) := by omega
    rw [mask1F_low i (by omega)]
    simp [h11, h5]
  · rcases lt_or_ge i 11 with hi2 | hi2
    · have h11 : ¬ (11 ≤ i) := by omega
      rw [show 5 + (i - 5) = i from by omega, mask7E0_mid i (by omega) (by omega),
        testBit_ge (x := 0x1F) (by norm_num) hi]
      simp [h11, hi]
    · rcases lt_or_ge i 16 with hi3 | hi3
      · rw [show 11 + (i - 11) = i from by omega, show 5 + (i - 5) = i from by omega,
          maskF800_mid i (by omega) (by omega),
          testBit_ge (x := 0x7E0) (by norm_num) (show 11 ≤ i from hi2),
          testBit_ge (x := 0x1F) (by norm_num) (show 5 ≤ i from hi)]
        simp [hi, hi2]
      · rw [show 11 + (i - 11) = i from by omega, show 5 + (i - 5) = i from by omega,
          testBit_ge (x := 0xF800) (by norm_num) (show 16 ≤ i from hi3),
          testBit_ge (x := 0x7E0) (by norm_num) (show 11 ≤ i from hi2),
          testBit_ge (x := 0x1F) (by norm_num) (show 5 ≤ i from hi), huf i hi3]
        simp

theorem encode565_cons (r8 g8 b8 : ℕ) :
    encode565 [r8, g8, b8] =
      chanFrom8 r8 31 <<< 11 ||| chanFrom8 g8 63 <<< 5 ||| chanFrom8 b8 31 := rfl

theorem hi_bound (u : ℕ) : (u &&& 0xF800) >>> 11 < 32 := by
  rw [Nat.shiftRight_eq_div_pow]
  exact lt_of_le_of_lt (Nat.div_le_div_right Nat.and_le_right) (by norm_num)

theorem mid_bound (u : ℕ) : (u &&& 0x7E0) >>> 5 < 64 := by
  rw [Nat.shiftRight_eq_div_pow]
  exact lt_of_le_of_lt (Nat.div_le_div_right Nat.and_le_right) (by norm_num)

theorem lo_bound (u : ℕ) : u &&& 0x1F < 32 :=
  lt_of_le_of_lt Nat.and_le_right (by norm_num)

theorem decode565_def (u : ℕ) :
    decode565 u = [chanTo8 ((u &&& 0xF800) >>> 11) 31,
      chanTo8 ((u &&& 0x7E0) >>> 5) 63, chanTo8 (u &&& 0x1F) 31] := rfl

theorem chanTo8_31 (c : ℕ) : chanTo8 c 31 = pyRoundDivN (c * 255) 31 :=
  chanTo8_eq c 31 (by norm_num)

theorem chanTo8_63 (c : ℕ) : chanTo8 c 63 = pyRoundDivN (c * 255) 63 :=
  chanTo8_eq c 63 (by norm_num)

theorem getD_cons3_zero (a b c d : ℕ) : [a, b, c].getD 0 d = a := rfl

theorem getD_cons3_one (a b c d : ℕ) : [a, b, c].getD 1 d = b := rfl

theorem getD_cons3_two (a b c d : ℕ) : [a, b, c].getD 2 d = c := rfl

theorem chanFrom8_31_lt (c : ℕ) (hc : c < 256) : chanFrom8 c 31 < 32 := by
  rw [chanFrom8_eq]
  revert c
  decide

theorem chanFrom8_63_lt (c : ℕ) (hc : c < 256) : chanFrom8 c 63 < 64 := by
  rw [chanFrom8_eq]
  revert c
  decide

theorem chan5_err_bound (c : ℕ) (hc : c < 256) :
    ((chanTo8 (chanFrom8 c 31) 31 : ℤ) - c).natAbs ≤ 4 := by
  rw [chanTo8_31, chanFrom8_eq]
  revert c
  decide

theorem chan6_err_bound (c : ℕ) (hc : c < 256) :
    ((chanTo8 (chanFrom8 c 63) 63 : ℤ) - c).natAbs ≤ 2 := by
  rw [chanTo8_63, chanFrom8_eq]
  revert c
  decide

/-- C5: for every packed 16-bit 5-6-5 color value, decoding it to an 8-bit
RGB triplet (the conversion in `__extract_palette`) and re-encoding the
triplet (the conversion in `__serialize_palette`) recovers the packed value
exactly: this direction of the round trip is lossless. -/
theorem C5_packed_roundtrip (u : ℕ) (hu : u < 65536) :
    encode565 (decode565 u) = u := by
  rw [decode565_def, encode565_cons, chan5_roundtrip _ (hi_bound u),
    chan6_roundtrip _ (mid_bound u), chan5_roundtrip _ (lo_bound u)]
  exact pack_unpack u hu

/-- Witness for C5 at the concrete packed value `0x1234`. -/
theorem C5_packed_roundtrip_witness :
    0x1234 < 65536 ∧ encode565 (decode565 0x1234) = 0x1234 :=
  ⟨by decide, C5_packed_roundtrip 0x1234 (by decide)⟩

/-- C4 counterexample: the 8-bit triplet `(4, 0, 0)` encodes to the packed
value 0 and decodes back to `(0, 0, 0)`; the red channel moves by 4, so the
claimed "at most 1 per channel" bound is false at this input. -/
theorem C4_counterexample :
    decode565 (encode565 [4, 0, 0]) = [0, 0, 0] ∧
      ¬ (((decode565 (encode565 [4, 0, 0])).getD 0 0 : ℤ) - 4).natAbs ≤ 1 := by
  have h : decode565 (encode565 [4, 0, 0]) = [0, 0, 0] := by
    simp only [decode565_def, encode565_cons, getD_cons3_zero, getD_cons3_one,
      getD_cons3_two, chanFrom8_eq, chanTo8_31, chanTo8_63]
    decide
  refine ⟨h, ?_⟩
  rw [h]
  decide

/-- C4 amended: for every 8-bit RGB triplet, encoding to packed 5-6-5 and
decoding back to 8-bit RGB differs from the original by at most 4 per 5-bit
channel (red, blue) and at most 2 for the 6-bit green channel; the ±1 bound
of the claim fails (see the counterexample), and the stated bounds are the
tight ones: the second conjunct attains all three at once — the triplet
`(4, 2, 4)` encodes to packed 0 and decodes to `(0, 0, 0)`, moving red and
blue by exactly 4 and green by exactly 2. -/
theorem C4_roundtrip_bound :
    (∀ r g b : ℕ, r ≤ 255 → g ≤ 255 → b ≤ 255 →
      (((decode565 (encode565 [r, g, b])).getD 0 0 : ℤ) - r).natAbs ≤ 4 ∧
      (((decode565 (encode565 [r, g, b])).getD 1 0 : ℤ) - g).natAbs ≤ 2 ∧
      (((decode565 (encode565 [r, g, b])).getD 2 0 : ℤ) - b).natAbs ≤ 4) ∧
    decode565 (encode565 [4, 2, 4]) = [0, 0, 0] := by
  constructor
  · intro r g b hr hg hb
    have hfr : chanFrom8 r 31 < 32 := chanFrom8_31_lt r (by omega)
    have hfg : chanFrom8 g 63 < 64 := chanFrom8_63_lt g (by omega)
    have hfb : chanFrom8 b 31 < 32 := chanFrom8_31_lt b (by omega)
    rw [encode565_cons, decode565_def, unpack_hi _ _ _ hfr hfg hfb,
      unpack_mid _ _ _ hfr hfg hfb, unpack_lo _ _ _ hfr hfg hfb]
    simp only [getD_cons3_zero, getD_cons3_one, getD_cons3_two]
    exact ⟨chan5_err_bound r (by omega), chan6_err_bound g (by omega),
      chan5_err_bound b (by omega)⟩
  · simp only [decode565_def, encode565_cons, getD_cons3_zero, getD_cons3_one,
      getD_cons3_two, chanFrom8_eq, chanTo8_31, chanTo8_63]
    decide

/-- Witness for C4 (amended): the bound part applied at the triplet
`(4, 100, 200)`, and the attainment part restated. -/
theorem C4_roundtrip_bound_witness :
    (4 ≤ 255 ∧ 100 ≤ 255 ∧ 200 ≤ 255) ∧
    ((((decode565 (encode565 [4, 100, 200])).getD 0 0 : ℤ) - 4).natAbs ≤ 4 ∧
     (((decode565 (encode565 [4, 100, 200])).getD 1 0 : ℤ) - 100).natAbs ≤ 2 ∧
     (((decode565 (encode565 [4, 100, 200])).getD 2 0 : ℤ) - 200).natAbs ≤ 4) ∧
    decode565 (encode565 [4, 2, 4]) = [0, 0, 0] :=
  ⟨by decide, C4_roundtrip_bound.1 4 100 200 (by decide) (by decide) (by decide),
    C4_roundtrip_bound.2⟩

/-! ## Helper: pointwise reading of a mapped matrix -/

theorem map2_getD {α β : Type} [Inhabited α] [Inhabited β] (f : α → β)
    (m : List (List α)) (i j : ℕ) (hi : i < m.length)
    (hj : j < (m.getD i []).length) :
    ((m.map (List.map f)).getD i []).getD j default = f ((m.getD i []).getD j default) := by
  have hrow : m.getD i [] = m[i] := by
    simp [List.getD_eq_getElem?_getD, List.getElem?_eq_getElem hi]
  have hj2 : j < (m[i]).length := by
    rw [← hrow]
    exact hj
  have hcell : (m[i]).getD j default = (m[i])[j] := by
    simp [List.getD_eq_getElem?_getD, List.getElem?_eq_getElem hj2]
  have hmrow : (m.map (List.map f)).getD i [] = List.map f (m[i]) := by
    simp [List.getD_eq_getElem?_getD, List.getElem?_eq_getElem hi]
  rw [hmrow, hrow, hcell]
  simp [List.getD_eq_getElem?_getD, List.getElem?_eq_getElem hj2]

/-- C2 counterexample: the claim's `temp(254) == temp_max` exactness fails
for the raw two-point model once the program's float64 arithmetic is
carried faithfully.  At the loadable telemetry `temp_min = -3276.8`,
`temp_max = 45.3` (int16 fields −32768 and 453, scaled by 10): the float64
values of the two decimals are `-7205759403792794/2^41` and
`6375408222496358/2^47`; the rounded difference `temp_max - temp_min` is
`7305375157269300/2^41`; `raw_img_np / 254.0` at `g = 254` is exactly 1, so
the multiplication returns the difference unchanged, and the final addition
`temp_min + ...` lands exactly on `99615753476506/2^41 =
45.30000000000018...`, already on the binary64 grid (its rounding is the
identity) — and that differs from the float64 `temp_max`.  The
exact-rational `rawTempPx` hides this (last conjunct): the failure is a
float64 rounding effect, not visible in ideal arithmetic. -/
theorem C2_raw254_float64_bug :
    fl64 (1/2^41) (-32768/10) = -(7205759403792794 / 2^41) ∧
    fl64 (1/2^47) (453/10) = 6375408222496358 / 2^47 ∧
    fl64 (1/2^41) (fl64 (1/2^47) (453/10) - fl64 (1/2^41) (-32768/10)) =
      7305375157269300 / 2^41 ∧
    fl64 (1/2^41) (-32768/10) +
        fl64 (1/2^41) (fl64 (1/2^47) (453/10) - fl64 (1/2^41) (-32768/10)) =
      99615753476506 / 2^41 ∧
    fl64 (1/2^47) (99615753476506 / 2^41) = 99615753476506 / 2^41 ∧
    (99615753476506 / 2^41 : ℚ) ≠ fl64 (1/2^47) (453/10) ∧
    rawTempPx (-32768/10) (453/10) 254 = 453/10 := by
  refine ⟨?_, ?_, ?_, ?_, ?_, ?_, ?_⟩
  · norm_num [fl64, pyRound]
  · norm_num [fl64, pyRound]
  · norm_num [fl64, pyRound]
  · norm_num [fl64, pyRound]
  · norm_num [fl64, pyRound]
  · norm_num [fl64, pyRound]
  · unfold rawTempPx
    norm_num

/-- C2 amended: grayscale 0 is exact in both models — the raw model adds an
exact zero, the fix model assigns `temp_min` directly — and grayscale 254
is exact in the fix model, again a direct assignment of the loaded
`temp_max`.  In the raw model, grayscale 254 yields
`temp_min + (temp_max - temp_min)`: equal to `temp_max` in exact
arithmetic, but in the program's float64 the rounded difference can miss
`temp_max` by one unit in the last place (see the counterexample), so the
claimed exactness holds there only up to a final rounding. -/
theorem C2_endpoint_amended (tmin tmax tcenter : ℚ) (center_gray : ℕ)
    (nonfinite : ℚ) :
    rawTempPx tmin tmax 0 = tmin ∧
    rawTempPx tmin tmax 254 = tmin + (tmax - tmin) ∧
    fixTempPx nonfinite tmin tmax tcenter center_gray 0 = tmin ∧
    fixTempPx nonfinite tmin tmax tcenter center_gray 254 = tmax := by
  refine ⟨?_, ?_, ?_, ?_⟩
  · unfold rawTempPx
    norm_num
  · unfold rawTempPx
    norm_num
  · unfold fixTempPx
    norm_num
  · unfold fixTempPx
    norm_num

/-- C3 counterexample: on a loaded 1×1 image whose temperature matrix holds
8/5 and range `(0, 255)`, the recomputed raster pixel is 1 (the
`astype(np.uint8)` cast truncates), while the claimed
`clamp(round(...), 0, 255)` formula gives `round(8/5) = 2`: the claim is
false at this input. -/
theorem C3_counterexample :
    (set_temp_range demoState 0 255 0).raw_img_np = [[1]] ∧
    remapPxSpec 0 255 (8/5) = 2 := by
  constructor
  · simp only [set_temp_range, set_rgb_image, demoState]
    norm_num [remapPx]
  · unfold remapPxSpec
    have hr2 : (round (255 * ((8/5 : ℚ) - 0) / (255 - 0)) : ℤ) = 2 := by
      norm_num [round_eq]
    rw [hr2]
    decide

/-- C3 amended: after `set_temp_range t_min t_max` with `t_min < t_max`,
every pixel of the display grayscale raster equals
`clamp(255 * (temp - t_min) / (t_max - t_min), 0, 255)` TRUNCATED toward
zero (floor of the clipped nonnegative value) — not rounded — computed from
the current temperature matrix: the raw conjunct holds for every state
(fix enabled or not), and the fix conjunct for every state with fix enabled
and a fix matrix present, at every in-range pixel of that matrix. -/
theorem C3_range_remap (st : UTState) (t_min t_max : ℚ) (undef : ℕ)
    (_h : t_min < t_max) (i j : ℕ) (hi : i < st.raw_temp_np.length)
    (hj : j < (st.raw_temp_np.getD i []).length) :
    ((set_temp_range st t_min t_max undef).raw_img_np.getD i []).getD j 0 =
      (⌊min 255 (max 0 (255 * ((st.raw_temp_np.getD i []).getD j 0 - t_min) /
        (t_max - t_min)))⌋).toNat ∧
    (st.use_fix = true → ∀ m, st.fix_temp_np = some m →
      ∀ k l : ℕ, k < m.length → l < (m.getD k []).length →
      ∃ fm, (set_temp_range st t_min t_max undef).fix_img_np = some fm ∧
        (fm.getD k []).getD l 0 =
          (⌊min 255 (max 0 (255 * ((m.getD k []).getD l 0 - t_min) /
            (t_max - t_min)))⌋).toNat) := by
  have hne : t_max - t_min ≠ 0 := sub_ne_zero.mpr _h.ne'
  have hpx : ∀ t : ℚ, remapPx undef t_min t_max t =
      (⌊min 255 (max 0 (255 * (t - t_min) / (t_max - t_min)))⌋).toNat := by
    intro t
    simp only [remapPx, if_neg hne]
  constructor
  · have hraw : (set_temp_range st t_min t_max undef).raw_img_np =
        st.raw_temp_np.map (List.map (remapPx undef t_min t_max)) := by
      unfold set_temp_range set_rgb_image
      by_cases hu : st.use_fix <;> simp [hu]
    rw [hraw]
    exact (map2_getD (remapPx undef t_min t_max) st.raw_temp_np i j hi hj).trans
      (hpx _)
  · intro hu m hm k l hk hl
    have hfix : (set_temp_range st t_min t_max undef).fix_img_np =
        some (m.map (List.map (remapPx undef t_min t_max))) := by
      unfold set_temp_range set_rgb_image
      simp [hu, hm]
    refine ⟨m.map (List.map (remapPx undef t_min t_max)), hfix, ?_⟩
    exact (map2_getD (remapPx undef t_min t_max) m k l hk hl).trans (hpx _)

/-- Witness for C3 (amended) on the demo state at pixel (0,0). -/
theorem C3_range_remap_witness :
    ((set_temp_range demoState 0 255 0).raw_img_np.getD 0 []).getD 0 0 =
      (⌊min 255 (max 0 (255 * ((demoState.raw_temp_np.getD 0 []).getD 0 0 - 0) /
        (255 - 0)))⌋).toNat ∧
    (demoState.use_fix = true → ∀ m, demoState.fix_temp_np = some m →
      ∀ k l : ℕ, k < m.length → l < (m.getD k []).length →
      ∃ fm, (set_temp_range demoState 0 255 0).fix_img_np = some fm ∧
        (fm.getD k []).getD l 0 =
          (⌊min 255 (max 0 (255 * ((m.getD k []).getD l 0 - 0) /
            (255 - 0)))⌋).toNat) :=
  C3_range_remap demoState 0 255 0 (by simp) 0 0 (by simp [demoState])
    (by simp [demoState])

/-- C8 counterexample: at the accepted degenerate pair `t_min = t_max = 5`
the recomputed grayscale map is monotone NONDECREASING — not the
non-monotonic mapping the claim asserts for every `t_min ≥ t_max`.  In the
program, every temperature below the bound maps to 0 (`-inf` clipped),
every one above to 255 (`+inf` clipped), and the bound itself to the
platform's NaN-cast byte, a `uint8` and hence at most 255, which therefore
always sits between the two plateaus: the map is nondecreasing whatever
that byte is (first conjunct, quantified over every byte value); the
remaining conjuncts evaluate the three regimes concretely. -/
theorem C8_counterexample :
    (∀ undef : ℕ, undef ≤ 255 → ∀ t1 t2 : ℚ, t1 ≤ t2 →
      remapPx undef 5 5 t1 ≤ remapPx undef 5 5 t2) ∧
    remapPx 7 5 5 4 = 0 ∧ remapPx 7 5 5 5 = 7 ∧ remapPx 7 5 5 6 = 255 := by
  have h0 : (5 : ℚ) - 5 = 0 := sub_self 5
  refine ⟨?_, ?_, ?_, ?_⟩
  · intro undef hu t1 t2 h12
    simp only [remapPx, if_pos h0]
    split_ifs <;> first | omega | linarith
  · simp only [remapPx, if_pos h0]
    norm_num
  · simp only [remapPx, if_pos h0]
    norm_num
  · simp only [remapPx, if_pos h0]
    norm_num

/-- C8 amended: `set_temp_range` accepts every pair with `t_min ≥ t_max` —
it is a total state update (the source checks nothing and numpy raises no
error) — recomputes the display raster pointwise from the current
temperature matrix, stores the override bounds and leaves the calibration
`temp_min`/`temp_max` untouched; for a strictly inverted range
(`t_max < t_min`) the grayscale map is antitone in temperature (the
display-inverting mapping), while for the degenerate equal range the
zero-denominator float pipeline saturates monotonically instead:
temperatures above the bound map to 255 (`+inf` clipped), below to 0
(`-inf` clipped), and exactly at the bound to the platform-defined
NaN-cast byte `undef`. -/
theorem C8_accepts_inverted_range (st : UTState) (t_min t_max : ℚ)
    (undef : ℕ) (_h : t_max ≤ t_min) :
    (set_temp_range st t_min t_max undef).raw_img_np =
      st.raw_temp_np.map (List.map (remapPx undef t_min t_max)) ∧
    (set_temp_range st t_min t_max undef).temp_min = st.temp_min ∧
    (set_temp_range st t_min t_max undef).temp_max = st.temp_max ∧
    (set_temp_range st t_min t_max undef).temp_min_ow = t_min ∧
    (set_temp_range st t_min t_max undef).temp_max_ow = t_max ∧
    (t_max < t_min → ∀ t1 t2 : ℚ, t1 ≤ t2 →
      remapPx undef t_min t_max t2 ≤ remapPx undef t_min t_max t1) ∧
    (t_max = t_min → ∀ t : ℚ,
      remapPx undef t_min t_max t =
        if t_min < t then 255 else if t < t_min then 0 else undef) := by
  refine ⟨?_, ?_, ?_, ?_, ?_, ?_, ?_⟩
  · by_cases hu : st.use_fix <;> simp [set_temp_range, set_rgb_image, hu]
  · by_cases hu : st.use_fix <;> simp [set_temp_range, set_rgb_image, hu]
  · by_cases hu : st.use_fix <;> simp [set_temp_range, set_rgb_image, hu]
  · by_cases hu : st.use_fix <;> simp [set_temp_range, set_rgb_image, hu]
  · by_cases hu : st.use_fix <;> simp [set_temp_range, set_rgb_image, hu]
  · intro hlt t1 t2 h12
    have hne : t_max - t_min ≠ 0 := sub_ne_zero.mpr hlt.ne
    simp only [remapPx, if_neg hne]
    apply Int.toNat_le_toNat
    apply Int.floor_mono
    apply min_le_min le_rfl
    apply max_le_max le_rfl
    apply div_le_div_of_nonpos_of_le (by linarith)
    linarith
  · intro heq t
    have h0 : t_max - t_min = 0 := by rw [heq, sub_self]
    simp only [remapPx]
    rw [if_pos h0]

/-- Witness for C8 (amended) on the demo state with the degenerate range
(5, 5) and NaN-cast byte 7. -/
theorem C8_accepts_inverted_range_witness :
    (set_temp_range demoState 5 5 7).raw_img_np =
      demoState.raw_temp_np.map (List.map (remapPx 7 5 5)) ∧
    (set_temp_range demoState 5 5 7).temp_min = demoState.temp_min ∧
    (set_temp_range demoState 5 5 7).temp_max = demoState.temp_max ∧
    (set_temp_range demoState 5 5 7).temp_min_ow = 5 ∧
    (set_temp_range demoState 5 5 7).temp_max_ow = 5 ∧
    ((5 : ℚ) < 5 → ∀ t1 t2 : ℚ, t1 ≤ t2 →
      remapPx 7 5 5 t2 ≤ remapPx 7 5 5 t1) ∧
    ((5 : ℚ) = 5 → ∀ t : ℚ,
      remapPx 7 5 5 t = if (5 : ℚ) < t then 255 else if t < 5 then 0 else 7) :=
  C8_accepts_inverted_range demoState 5 5 7 (by simp)

/-- C6: `set_palette` with a palette argument whose shape is not exactly
256 rows of 3 channels raises `ValueError` before any assignment: the
returned state is the caller's state unchanged (palette, rendered RGB
images and the palette-modified flag included). -/
theorem C6_bad_palette_shape (st : UTState) (p : List (List ℕ)) (reverse : Bool)
    (hbad : ¬(p.length = 256 ∧ p.all fun row => row.length = 3)) :
    set_palette st (some p) reverse =
      (st, some "Invalid shape of palette. Expected (256,3)") := by
  simp only [set_palette]
  rw [if_pos hbad]

/-- Witness for C6 with the 1×3 palette `[[1, 2, 3]]`. -/
theorem C6_bad_palette_shape_witness :
    (¬((([[1, 2, 3]] : List (List ℕ))).length = 256 ∧
        ([[1, 2, 3]] : List (List ℕ)).all fun row => row.length = 3)) ∧
    set_palette demoState (some [[1, 2, 3]]) false =
      (demoState, some "Invalid shape of palette. Expected (256,3)") :=
  ⟨by decide, C6_bad_palette_shape demoState [[1, 2, 3]] false (by decide)⟩

/-- C7 evidence (code bug): the loader performs neither a length check nor a
magic check.  On the 2-byte buffer `[0x58, 0x59]` (wrong magic, shorter than
any header) the header read fails with an out-of-range index
(`none` = Python `IndexError`), not a `FormatError`; and a 54-byte zero
buffer whose first two bytes are not the bitmap magic parses successfully
(no error of any kind).  The source marks the missing validation with
`# TODO: Check internal file format`. -/
theorem C7_no_format_check :
    get_bmp_header [0x58, 0x59] = none ∧
    (get_bmp_header (List.replicate 54 0)).isSome = true := by
  constructor
  · decide
  · decide

/-- C10: the undefined raw sample value 255 is an out-of-range pass-through,
not a decode error: the palette lookup is defined for every grayscale index
below 256 (so rendering succeeds), and the raw two-point model assigns the
extrapolated temperature `temp_min + (temp_max - temp_min) * 255 / 254`,
strictly above `temp_max` whenever `temp_min < temp_max`. -/
theorem C10_gray255_pass_through (pal : List (List ℕ)) (hpal : pal.length = 256)
    (tmin tmax : ℚ) (hlt : tmin < tmax) :
    (∀ g : ℕ, g < 256 → (pal[g]?).isSome = true) ∧
    rawTempPx tmin tmax 255 = tmin + (tmax - tmin) * (255 / 254) ∧
    tmax < rawTempPx tmin tmax 255 := by
  refine ⟨?_, ?_, ?_⟩
  · intro g hg
    simp only [Option.isSome_iff_ne_none, ne_eq, List.getElem?_eq_none_iff, hpal]
    omega
  · unfold rawTempPx
    norm_num
  · unfold rawTempPx
    have h1 : (tmax - tmin) * 1 < (tmax - tmin) * (255 / 254) := by
      apply mul_lt_mul_of_pos_left _ (sub_pos.mpr hlt)
      norm_num
    push_cast
    linarith

/-- Witness for C10 with a 256-entry zero palette and range (0, 1). -/
theorem C10_gray255_pass_through_witness :
    ((List.replicate 256 ([0, 0, 0] : List ℕ)).length = 256 ∧ (0 : ℚ) < 1) ∧
    ((∀ g : ℕ, g < 256 →
        ((List.replicate 256 ([0, 0, 0] : List ℕ))[g]?).isSome = true) ∧
      rawTempPx 0 1 255 = 0 + (1 - 0) * (255 / 254) ∧
      (1 : ℚ) < rawTempPx 0 1 255) :=
  ⟨⟨by simp, by simp⟩,
    C10_gray255_pass_through (List.replicate 256 [0, 0, 0]) (by simp) 0 1 (by simp)⟩

/-! ## Helper lemmas: extremum-tracking folds for the ROI query -/

theorem foldl_min_mem (l : List ((ℕ × ℕ) × ℚ)) (a : (ℕ × ℕ) × ℚ) :
    l.foldl (fun a x => if x.2 < a.2 then x else a) a ∈ a :: l := by
  induction l generalizing a with
  | nil => simp
  | cons b t ih =>
    have h := ih (if b.2 < a.2 then b else a)
    simp only [List.foldl_cons]
    by_cases hb : b.2 < a.2 <;> simp [hb] at h ⊢ <;> tauto

theorem foldl_min_le (l : List ((ℕ × ℕ) × ℚ)) (a : (ℕ × ℕ) × ℚ) :
    ∀ x ∈ a :: l, (l.foldl (fun a x => if x.2 < a.2 then x else a) a).2 ≤ x.2 := by
  induction l generalizing a with
  | nil =>
    intro x hx
    simp at hx
    simp [hx]
  | cons b t ih =>
    intro x hx
    have hstep : (if b.2 < a.2 then b else a).2 ≤ a.2 ∧
        (if b.2 < a.2 then b else a).2 ≤ b.2 := by
      by_cases hb : b.2 < a.2 <;> simp [hb] <;> linarith
    have hh := ih (if b.2 < a.2 then b else a)
    simp only [List.foldl_cons]
    rcases List.mem_cons.mp hx with rfl | hx'
    · exact le_trans (hh _ (List.mem_cons_self _ _)) hstep.1
    · rcases List.mem_cons.mp hx' with rfl | hx''
      · exact le_trans (hh _ (List.mem_cons_self _ _)) hstep.2
      · exact hh _ (List.mem_cons_of_mem _ hx'')

theorem foldl_max_mem (l : List ((ℕ × ℕ) × ℚ)) (a : (ℕ × ℕ) × ℚ) :
    l.foldl (fun a x => if a.2 < x.2 then x else a) a ∈ a :: l := by
  induction l generalizing a with
  | nil => simp
  | cons b t ih =>
    have h := ih (if a.2 < b.2 then b else a)
    simp only [List.foldl_cons]
    by_cases hb : a.2 < b.2 <;> simp [hb] at h ⊢ <;> tauto

theorem foldl_max_ge (l : List ((ℕ × ℕ) × ℚ)) (a : (ℕ × ℕ) × ℚ) :
    ∀ x ∈ a :: l, x.2 ≤ (l.foldl (fun a x => if a.2 < x.2 then x else a) a).2 := by
  induction l generalizing a with
  | nil =>
    intro x hx
    simp at hx
    simp [hx]
  | cons b t ih =>
    intro x hx
    have hstep : a.2 ≤ (if a.2 < b.2 then b else a).2 ∧
        b.2 ≤ (if a.2 < b.2 then b else a).2 := by
      by_cases hb : a.2 < b.2 <;> simp [hb] <;> linarith
    have hh := ih (if a.2 < b.2 then b else a)
    simp only [List.foldl_cons]
    rcases List.mem_cons.mp hx with rfl | hx'
    · exact le_trans hstep.1 (hh _ (List.mem_cons_self _ _))
    · rcases List.mem_cons.mp hx' with rfl | hx''
      · exact le_trans hstep.2 (hh _ (List.mem_cons_self _ _))
      · exact hh _ (List.mem_cons_of_mem _ hx'')

theorem mem_roiCells (temp : List (List ℚ)) (rowStart rowEnd colStart colEnd : ℕ)
    (c : (ℕ × ℕ) × ℚ) :
    c ∈ (List.range (rowEnd - rowStart)).flatMap (fun i =>
        (List.range (colEnd - colStart)).map fun j =>
          ((i, j), (temp.getD (rowStart + i) []).getD (colStart + j) 0)) ↔
      c.1.1 < rowEnd - rowStart ∧ c.1.2 < colEnd - colStart ∧
        c.2 = (temp.getD (rowStart + c.1.1) []).getD (colStart + c.1.2) 0 := by
  obtain ⟨⟨ci, cj⟩, cv⟩ := c
  simp only [List.mem_flatMap, List.mem_map, List.mem_range]
  constructor
  · rintro ⟨i, hi, j, hj, heq⟩
    obtain ⟨h1, h2⟩ := Prod.mk.injEq .. ▸ heq
    cases heq
    exact ⟨hi, hj, rfl⟩
  · rintro ⟨h1, h2, h3⟩
    exact ⟨ci, h1, cj, h2, by simp [h3]⟩

/-- C9 (spec-modelled, see `getRoiExtrema`): the ROI extrema query fails with
`RangeError` on every rectangle that exceeds the frame bounds or is
degenerate (`rowStart ≥ rowEnd` or `colStart ≥ colEnd`), and on every valid
rectangle returns the minimum and maximum temperature together with
rectangle-relative positions: the reported positions lie inside the
rectangle, the temperature at `(rowStart, colStart) + pos` is the reported
extremum, and every cell of the rectangle is between the two extrema. -/
theorem C9_roi_extrema (temp : List (List ℚ)) (rowStart rowEnd colStart colEnd : ℕ) :
    ((rowEnd > temp.length ∨ colEnd > (temp.headD []).length ∨
        rowStart ≥ rowEnd ∨ colStart ≥ colEnd) →
      getRoiExtrema temp rowStart rowEnd colStart colEnd = .error "RangeError") ∧
    (rowEnd ≤ temp.length → colEnd ≤ (temp.headD []).length →
      rowStart < rowEnd → colStart < colEnd →
      ∃ res : RoiResult,
        getRoiExtrema temp rowStart rowEnd colStart colEnd = .ok res ∧
        res.min_pos.1 < rowEnd - rowStart ∧ res.min_pos.2 < colEnd - colStart ∧
        (temp.getD (rowStart + res.min_pos.1) []).getD (colStart + res.min_pos.2) 0 =
          res.temp_min ∧
        res.max_pos.1 < rowEnd - rowStart ∧ res.max_pos.2 < colEnd - colStart ∧
        (temp.getD (rowStart + res.max_pos.1) []).getD (colStart + res.max_pos.2) 0 =
          res.temp_max ∧
        ∀ i j, i < rowEnd - rowStart → j < colEnd - colStart →
          res.temp_min ≤ (temp.getD (rowStart + i) []).getD (colStart + j) 0 ∧
          (temp.getD (rowStart + i) []).getD (colStart + j) 0 ≤ res.temp_max) := by
  constructor
  · intro hbad
    unfold getRoiExtrema
    rw [if_pos hbad]
  · intro h1 h2 h3 h4
    have hnot : ¬(rowEnd > temp.length ∨ colEnd > (temp.headD []).length ∨
        rowStart ≥ rowEnd ∨ colStart ≥ colEnd) := by
      push_neg
      exact ⟨h1, h2, h3, h4⟩
    set cells := (List.range (rowEnd - rowStart)).flatMap (fun i =>
        (List.range (colEnd - colStart)).map fun j =>
          ((i, j), (temp.getD (rowStart + i) []).getD (colStart + j) 0)) with hcellsdef
    have hne : cells ≠ [] := by
      apply List.ne_nil_of_mem (a := ((0, 0),
        (temp.getD (rowStart + 0) []).getD (colStart + 0) 0))
      rw [hcellsdef, mem_roiCells]
      refine ⟨?_, ?_, rfl⟩ <;> simp <;> omega
    rcases hcl : cells with _ | ⟨c, rest⟩
    · exact absurd hcl hne
    have hre : getRoiExtrema temp rowStart rowEnd colStart colEnd =
        .ok ⟨(rest.foldl (fun a x => if x.2 < a.2 then x else a) c).2,
             (rest.foldl (fun a x => if x.2 < a.2 then x else a) c).1,
             (rest.foldl (fun a x => if a.2 < x.2 then x else a) c).2,
             (rest.foldl (fun a x => if a.2 < x.2 then x else a) c).1⟩ := by
      unfold getRoiExtrema
      rw [if_neg hnot, ← hcellsdef, hcl]
    refine ⟨_, hre, ?_⟩
    have hmnmem : (rest.foldl (fun a x => if x.2 < a.2 then x else a) c) ∈ cells := by
      rw [hcl]
      exact foldl_min_mem rest c
    have hmxmem : (rest.foldl (fun a x => if a.2 < x.2 then x else a) c) ∈ cells := by
      rw [hcl]
      exact foldl_max_mem rest c
    rw [hcellsdef, mem_roiCells] at hmnmem hmxmem
    refine ⟨hmnmem.1, hmnmem.2.1, hmnmem.2.2.symm, hmxmem.1, hmxmem.2.1,
      hmxmem.2.2.symm, ?_⟩
    intro i j hi hj
    have hcellmem : ((i, j), (temp.getD (rowStart + i) []).getD (colStart + j) 0)
        ∈ cells := by
      rw [hcellsdef, mem_roiCells]
      exact ⟨hi, hj, rfl⟩
    rw [hcl] at hcellmem
    constructor
    · exact foldl_min_le rest c _ hcellmem
    · exact foldl_max_ge rest c _ hcellmem

/-- Witness for C9: valid full-frame query on the demo 2×2 matrix. -/
theorem C9_roi_extrema_witness :
    ∃ res : RoiResult,
      getRoiExtrema demoTemps 0 2 0 2 = .ok res ∧
      res.min_pos.1 < 2 - 0 ∧ res.min_pos.2 < 2 - 0 ∧
      (demoTemps.getD (0 + res.min_pos.1) []).getD (0 + res.min_pos.2) 0 =
        res.temp_min ∧
      res.max_pos.1 < 2 - 0 ∧ res.max_pos.2 < 2 - 0 ∧
      (demoTemps.getD (0 + res.max_pos.1) []).getD (0 + res.max_pos.2) 0 =
        res.temp_max ∧
      ∀ i j, i < 2 - 0 → j < 2 - 0 →
        res.temp_min ≤ (demoTemps.getD (0 + i) []).getD (0 + j) 0 ∧
        (demoTemps.getD (0 + i) []).getD (0 + j) 0 ≤ res.temp_max :=
  (C9_roi_extrema demoTemps 0 2 0 2).2 (by simp [demoTemps]) (by simp [demoTemps])
    (by decide) (by decide)

/-! ## Helper lemmas: byte buffers, overwrite, and the decode pipeline -/

theorem overwrite_length (bs : List ℕ) (start : ℕ) (vals : List ℕ)
    (h : start + vals.length ≤ bs.length) :
    (overwrite bs start vals).length = bs.length := by
  simp [overwrite]
  omega

theorem overwrite_getElem_low (bs : List ℕ) (start : ℕ) (vals : List ℕ)
    (i : ℕ) (hi : i < start) (hs : start ≤ bs.length) :
    (overwrite bs start vals)[i]? = bs[i]? := by
  unfold overwrite
  rw [List.getElem?_append_left (by simp; omega),
    List.getElem?_append_left (by simp; omega), List.getElem?_take_of_lt hi]

theorem overwrite_getElem_high (bs : List ℕ) (start : ℕ) (vals : List ℕ)
    (i : ℕ) (hi : start + vals.length ≤ i) (hs : start ≤ bs.length) :
    (overwrite bs start vals)[i]? = bs[i]? := by
  unfold overwrite
  rw [List.getElem?_append_right (by simp; omega), List.getElem?_drop]
  congr 1
  simp [Nat.min_eq_left hs]
  omega

theorem overwrite_drop (bs : List ℕ) (start : ℕ) (vals : List ℕ) (n : ℕ)
    (h1 : start + vals.length ≤ n) (h2 : n ≤ bs.length) :
    (overwrite bs start vals).drop n = bs.drop n := by
  have hs : start ≤ bs.length := by omega
  have hlen : (List.take start bs ++ vals).length = start + vals.length := by
    simp [Nat.min_eq_left hs]
  have hnil : List.drop n (List.take start bs ++ vals) = [] :=
    List.drop_eq_nil_of_le (by rw [hlen]; omega)
  unfold overwrite
  rw [List.drop_append_eq_append_drop, hnil]
  simp only [List.nil_append]
  rw [List.drop_drop]
  congr 1
  omega

theorem read_u16_congr {l1 l2 : List ℕ} {i : ℕ}
    (h0 : l1[i]? = l2[i]?) (h1 : l1[i + 1]? = l2[i + 1]?) :
    read_u16 l1 i = read_u16 l2 i := by
  unfold read_u16
  rw [h0, h1]

theorem read_int16_congr {l1 l2 : List ℕ} {i : ℕ}
    (h0 : l1[i]? = l2[i]?) (h1 : l1[i + 1]? = l2[i + 1]?) :
    read_int16 l1 i = read_int16 l2 i := by
  unfold read_int16
  rw [read_u16_congr h0 h1]

theorem read_u32_congr {l1 l2 : List ℕ} {i : ℕ}
    (h0 : l1[i]? = l2[i]?) (h1 : l1[i + 1]? = l2[i + 1]?)
    (h2 : l1[i + 2]? = l2[i + 2]?) (h3 : l1[i + 3]? = l2[i + 3]?) :
    read_u32 l1 i = read_u32 l2 i := by
  unfold read_u32
  rw [h0, h1, h2, h3]

theorem read_int32_congr {l1 l2 : List ℕ} {i : ℕ}
    (h0 : l1[i]? = l2[i]?) (h1 : l1[i + 1]? = l2[i + 1]?)
    (h2 : l1[i + 2]? = l2[i + 2]?) (h3 : l1[i + 3]? = l2[i + 3]?) :
    read_int32 l1 i = read_int32 l2 i := by
  unfold read_int32
  rw [read_u32_congr h0 h1 h2 h3]

theorem get_bmp_header_congr (l1 l2 : List ℕ)
    (h : ∀ j, j < 54 → l1[j]? = l2[j]?) :
    get_bmp_header l1 = get_bmp_header l2 := by
  have r32 : ∀ i, i + 3 < 54 → read_int32 l1 i = read_int32 l2 i := fun i hi =>
    read_int32_congr (h i (by omega)) (h (i + 1) (by omega)) (h (i + 2) (by omega))
      (h (i + 3) (by omega))
  have r16 : ∀ i, i + 1 < 54 → read_int16 l1 i = read_int16 l2 i := fun i hi =>
    read_int16_congr (h i (by omega)) (h (i + 1) (by omega))
  unfold get_bmp_header
  rw [r32 2 (by omega), r16 6 (by omega), r16 8 (by omega), r32 10 (by omega),
    r32 14 (by omega), r32 18 (by omega), r32 22 (by omega), r16 26 (by omega),
    r16 28 (by omega), r32 30 (by omega), r32 34 (by omega), r32 38 (by omega),
    r32 42 (by omega), r32 46 (by omega), r32 50 (by omega)]

theorem extract_temp_data_congr {l1 l2 : List ℕ} {off : ℕ}
    (h : ∀ j, off ≤ j → j < off + 26 → l1[j]? = l2[j]?) :
    extract_temp_data l1 off = extract_temp_data l2 off := by
  have r16 : ∀ k, k + 1 < 26 →
      read_int16 l1 (off + k) = read_int16 l2 (off + k) := fun k hk =>
    read_int16_congr (h (off + k) (by omega) (by omega))
      (h (off + k + 1) (by omega) (by omega))
  unfold extract_temp_data
  rw [h off (by omega) (by omega), r16 1 (by omega), r16 3 (by omega),
    r16 7 (by omega), h (off + 9) (by omega) (by omega), r16 14 (by omega),
    r16 16 (by omega), r16 18 (by omega), r16 20 (by omega), r16 22 (by omega),
    r16 24 (by omega)]

theorem mapM_option_congr {α β : Type} (l : List α) (f g : α → Option β)
    (h : ∀ a ∈ l, f a = g a) : l.mapM f = l.mapM g := by
  induction l with
  | nil => rfl
  | cons a t ih =>
    rw [List.mapM_cons, List.mapM_cons, h a (by simp),
      ih (fun x hx => h x (by simp [hx]))]

theorem extract_palette_congr (l1 l2 : List ℕ) (off : ℕ)
    (h : ∀ j, off ≤ j → j < off + 512 → l1[j]? = l2[j]?) :
    extract_palette l1 off = extract_palette l2 off := by
  unfold extract_palette
  apply mapM_option_congr
  intro k hk
  rw [List.mem_range] at hk
  rw [read_u16_congr (h (off + 2 * k) (by omega) (by omega))
    (h (off + 2 * k + 1) (by omega) (by omega))]

theorem read_u16_eq (bs : List ℕ) (i : ℕ) (h : i + 1 < bs.length) :
    read_u16 bs i = some (bs[i] ||| (bs[i + 1] <<< 8)) := by
  unfold read_u16
  rw [List.getElem?_eq_getElem (show i < bs.length by omega),
    List.getElem?_eq_getElem h]
  rfl

theorem read_int16_eq (bs : List ℕ) (i : ℕ) (h : i + 1 < bs.length) :
    read_int16 bs i =
      some (toSigned16 (bs[i] ||| (bs[i + 1] <<< 8))) := by
  unfold read_int16
  rw [read_u16_eq bs i h]
  rfl

theorem read_u32_some (bs : List ℕ) (i : ℕ) (h : i + 3 < bs.length) :
    (read_u32 bs i).isSome = true := by
  unfold read_u32
  rw [List.getElem?_eq_getElem (show i < bs.length by omega),
    List.getElem?_eq_getElem (show i + 1 < bs.length by omega),
    List.getElem?_eq_getElem (show i + 2 < bs.length by omega),
    List.getElem?_eq_getElem h]
  rfl

theorem read_int32_some (bs : List ℕ) (i : ℕ) (h : i + 3 < bs.length) :
    (read_int32 bs i).isSome = true := by
  obtain ⟨u, hu⟩ := Option.isSome_iff_exists.mp (read_u32_some bs i h)
  unfold read_int32
  rw [hu]
  rfl

theorem extract_temp_data_some (bs : List ℕ) (off : ℕ)
    (h : off + 25 < bs.length) :
    (extract_temp_data bs off).isSome = true := by
  unfold extract_temp_data
  rw [List.getElem?_eq_getElem (show off < bs.length by omega),
    read_int16_eq bs (off + 1) (by omega), read_int16_eq bs (off + 3) (by omega),
    read_int16_eq bs (off + 7) (by omega),
    List.getElem?_eq_getElem (show off + 9 < bs.length by omega),
    read_int16_eq bs (off + 14) (by omega), read_int16_eq bs (off + 16) (by omega),
    read_int16_eq bs (off + 18) (by omega), read_int16_eq bs (off + 20) (by omega),
    read_int16_eq bs (off + 22) (by omega), read_int16_eq bs (off + 24) (by omega)]
  rfl

theorem mapM_option_isSome {α β : Type} (l : List α) (f : α → Option β)
    (h : ∀ a ∈ l, (f a).isSome = true) : (l.mapM f).isSome = true := by
  induction l with
  | nil => rfl
  | cons a t ih =>
    obtain ⟨b, hb⟩ := Option.isSome_iff_exists.mp (h a (by simp))
    obtain ⟨bs', hbs⟩ :=
      Option.isSome_iff_exists.mp (ih (fun x hx => h x (by simp [hx])))
    rw [List.mapM_cons, hb, hbs]
    rfl

theorem extract_palette_some (bs : List ℕ) (off : ℕ)
    (h : off + 511 < bs.length) :
    (extract_palette bs off).isSome = true := by
  unfold extract_palette
  apply mapM_option_isSome
  intro k hk
  rw [List.mem_range] at hk
  rw [read_u16_eq bs (off + 2 * k) (by omega)]
  rfl

theorem flatMap_const_length {α : Type} (l : List α) (f : α → List ℕ) (k : ℕ)
    (hf : ∀ a ∈ l, (f a).length = k) : (l.flatMap f).length = k * l.length := by
  induction l with
  | nil => simp
  | cons a t ih =>
    simp only [List.flatMap_cons, List.length_append, hf a (by simp),
      ih (fun x hx => hf x (by simp [hx])), List.length_cons]
    ring

theorem bgrStream_length (img : List (List (List ℕ))) (w : ℕ)
    (hw : ∀ row ∈ img, row.length = w) :
    (bgrStream img).length = 3 * (w * img.length) := by
  unfold bgrStream
  have hinner : ∀ row ∈ img.reverse,
      (row.flatMap fun px => [px.getD 2 0, px.getD 1 0, px.getD 0 0]).length
        = 3 * w := by
    intro row hrow
    rw [flatMap_const_length row
        (fun px => [px.getD 2 0, px.getD 1 0, px.getD 0 0]) 3 (fun px _ => rfl),
      hw row (List.mem_reverse.mp hrow)]
  rw [flatMap_const_length _ _ (3 * w) hinner, List.length_reverse]
  ring

theorem apply_palette_length (pal : List (List ℕ)) (m : List (List ℕ)) :
    (apply_palette pal m).length = m.length := by
  simp [apply_palette]

theorem apply_palette_row_length (pal : List (List ℕ)) (m : List (List ℕ))
    (w : ℕ) (hw : ∀ row ∈ m, row.length = w) :
    ∀ row ∈ apply_palette pal m, row.length = w := by
  intro row hrow
  rw [apply_palette, List.mem_map] at hrow
  obtain ⟨r0, hr0, rfl⟩ := hrow
  simp [hw r0 hr0]

theorem reshapeRows_length (h w : ℕ) (l : List ℕ) :
    (reshapeRows h w l).length = h := by
  induction h generalizing l with
  | zero => rfl
  | succ h' ih => simp [reshapeRows, ih]

theorem reshapeRows_row_length (h w : ℕ) (l : List ℕ) (hlen : w * h ≤ l.length) :
    ∀ row ∈ reshapeRows h w l, row.length = w := by
  induction h generalizing l with
  | zero => simp [reshapeRows]
  | succ h' ih =>
    intro row hrow
    simp only [reshapeRows, List.mem_cons] at hrow
    have hmul : w * (h' + 1) = w * h' + w := by ring
    rcases hrow with rfl | hrow
    · rw [List.length_take]
      omega
    · apply ih (l.drop w) _ row hrow
      rw [List.length_drop]
      omega

theorem extract_grayscale_img_eq (bs : List ℕ) (hd : BmpHeader)
    (h : hd.file_size.toNat +
      hd.img_width_px.toNat * hd.img_height_px.toNat ≤ bs.length) :
    extract_grayscale_img bs hd = some (reshapeRows hd.img_height_px.toNat
      hd.img_width_px.toNat ((bs.drop hd.file_size.toNat).take
        (hd.img_width_px.toNat * hd.img_height_px.toNat))) := by
  simp only [extract_grayscale_img]
  rw [if_pos]
  rw [List.length_take, List.length_drop]
  omega

theorem init_from_image_eq (bs : List ℕ) (hd : BmpHeader)
    (gray pal : List (List ℕ)) (tel : Telemetry) (tr : Option ℤ)
    (h1 : get_bmp_header bs = some hd)
    (h2 : extract_grayscale_img bs hd = some gray)
    (h3 : extract_palette bs (hd.file_size.toNat +
      hd.img_width_px.toNat * hd.img_height_px.toNat) = some pal)
    (h4 : extract_temp_data bs (hd.file_size.toNat +
      hd.img_width_px.toNat * hd.img_height_px.toNat + 512) = some tel)
    (h5 : extract_file_time bs (hd.file_size.toNat +
      hd.img_width_px.toNat * hd.img_height_px.toNat + 512 + 26) = some tr) :
    init_from_image bs = some ⟨hd, gray, pal, tel, tr⟩ := by
  simp only [init_from_image]
  rw [h1]
  simp only [Option.bind_eq_bind, Option.some_bind]
  rw [h2]
  simp only [Option.bind_eq_bind, Option.some_bind]
  rw [h3]
  simp only [Option.bind_eq_bind, Option.some_bind]
  rw [h4]
  simp only [Option.bind_eq_bind, Option.some_bind]
  rw [h5]
  simp only [Option.bind_eq_bind, Option.some_bind]
  rfl

/-- C1: exporting a bitmap from a well-formed camera-native file with the
unmodified palette and the raw (unfixed) rendering via `export_bmp`, then
reloading the exported bytes with `init_from_image`, decodes a Telemetry and
a raw grayscale frame (and palette) identical to those of the original file;
the only difference in the trailing data is that the original file carries no
timestamp trailer while the exported file now has one. -/
theorem C1_export_reimport (bs : List ℕ) (hd : BmpHeader) (ts : ℕ)
    (wf : WellFormedNative bs hd) :
    ∃ d d' : Decoded,
      init_from_image bs = some d ∧
      init_from_image (export_bmp bs hd
        (apply_palette d.palette_rgb_np d.raw_img_np) d.palette_rgb_np false ts)
        = some d' ∧
      d'.telemetry = d.telemetry ∧
      d'.raw_img_np = d.raw_img_np ∧
      d'.palette_rgb_np = d.palette_rgb_np ∧
      d.img_timestamp = none ∧
      d'.img_timestamp.isSome = true := by
  obtain ⟨hhd, hds54, hbpp, hfit, hlenq⟩ := wf
  -- decode of the original file
  have hgray := extract_grayscale_img_eq bs hd (by omega)
  obtain ⟨pal, hpal⟩ := Option.isSome_iff_exists.mp
    (extract_palette_some bs (hd.file_size.toNat +
      hd.img_width_px.toNat * hd.img_height_px.toNat) (by omega))
  obtain ⟨tel, htel⟩ := Option.isSome_iff_exists.mp
    (extract_temp_data_some bs (hd.file_size.toNat +
      hd.img_width_px.toNat * hd.img_height_px.toNat + 512) (by omega))
  have htr : extract_file_time bs (hd.file_size.toNat +
      hd.img_width_px.toNat * hd.img_height_px.toNat + 512 + 26) = some none := by
    unfold extract_file_time
    rw [if_neg (not_not_intro (by omega))]
  have hdec := init_from_image_eq bs hd _ pal tel none hhd hgray hpal htel htr
  -- shape of the exported pixel stream
  have hflatlen : ((bs.drop hd.file_size.toNat).take
      (hd.img_width_px.toNat * hd.img_height_px.toNat)).length =
      hd.img_width_px.toNat * hd.img_height_px.toNat := by
    rw [List.length_take, List.length_drop]
    omega
  have hrows := reshapeRows_row_length hd.img_height_px.toNat hd.img_width_px.toNat
    ((bs.drop hd.file_size.toNat).take
      (hd.img_width_px.toNat * hd.img_height_px.toNat)) hflatlen.symm.le
  have hvalslen : (bgrStream (apply_palette pal (reshapeRows hd.img_height_px.toNat
      hd.img_width_px.toNat ((bs.drop hd.file_size.toNat).take
        (hd.img_width_px.toNat * hd.img_height_px.toNat))))).length =
      3 * (hd.img_width_px.toNat * hd.img_height_px.toNat) := by
    rw [bgrStream_length _ hd.img_width_px.toNat
      (apply_palette_row_length pal _ hd.img_width_px.toNat hrows),
      apply_palette_length, reshapeRows_length]
  have hds_le : hd.data_start_byte.toNat ≤ bs.length := by omega
  have hover_len : (overwrite bs hd.data_start_byte.toNat
      (bgrStream (apply_palette pal (reshapeRows hd.img_height_px.toNat
        hd.img_width_px.toNat ((bs.drop hd.file_size.toNat).take
          (hd.img_width_px.toNat * hd.img_height_px.toNat)))))).length =
      bs.length :=
    overwrite_length _ _ _ (by rw [hvalslen]; omega)
  have htslen : (tsBytes ts).length = 4 := rfl
  have hE : export_bmp bs hd (apply_palette pal (reshapeRows hd.img_height_px.toNat
      hd.img_width_px.toNat ((bs.drop hd.file_size.toNat).take
        (hd.img_width_px.toNat * hd.img_height_px.toNat)))) pal false ts =
      overwrite bs hd.data_start_byte.toNat
        (bgrStream (apply_palette pal (reshapeRows hd.img_height_px.toNat
          hd.img_width_px.toNat ((bs.drop hd.file_size.toNat).take
            (hd.img_width_px.toNat * hd.img_height_px.toNat))))) ++ tsBytes ts := by
    simp [export_bmp]
  have hElen : (overwrite bs hd.data_start_byte.toNat
      (bgrStream (apply_palette pal (reshapeRows hd.img_height_px.toNat
        hd.img_width_px.toNat ((bs.drop hd.file_size.toNat).take
          (hd.img_width_px.toNat * hd.img_height_px.toNat))))) ++
        tsBytes ts).length = bs.length + 4 := by
    rw [List.length_append, hover_len, htslen]
  -- byte agreement outside the overwritten pixel region
  have hagree_low : ∀ j, j < hd.data_start_byte.toNat →
      (overwrite bs hd.data_start_byte.toNat
        (bgrStream (apply_palette pal (reshapeRows hd.img_height_px.toNat
          hd.img_width_px.toNat ((bs.drop hd.file_size.toNat).take
            (hd.img_width_px.toNat * hd.img_height_px.toNat))))) ++
          tsBytes ts)[j]? = bs[j]? := by
    intro j hj
    rw [List.getElem?_append_left (by rw [hover_len]; omega)]
    exact overwrite_getElem_low bs _ _ j hj hds_le
  have hagree_high : ∀ j, hd.data_start_byte.toNat +
      3 * (hd.img_width_px.toNat * hd.img_height_px.toNat) ≤ j → j < bs.length →
      (overwrite bs hd.data_start_byte.toNat
        (bgrStream (apply_palette pal (reshapeRows hd.img_height_px.toNat
          hd.img_width_px.toNat ((bs.drop hd.file_size.toNat).take
            (hd.img_width_px.toNat * hd.img_height_px.toNat))))) ++
          tsBytes ts)[j]? = bs[j]? := by
    intro j hj1 hj2
    rw [List.getElem?_append_left (by rw [hover_len]; omega)]
    exact overwrite_getElem_high bs _ _ j (by rw [hvalslen]; omega) hds_le
  -- the re-imported header
  have hhdE : get_bmp_header (overwrite bs hd.data_start_byte.toNat
      (bgrStream (apply_palette pal (reshapeRows hd.img_height_px.toNat
        hd.img_width_px.toNat ((bs.drop hd.file_size.toNat).take
          (hd.img_width_px.toNat * hd.img_height_px.toNat))))) ++
        tsBytes ts) = some hd := by
    rw [get_bmp_header_congr _ bs (fun j hj => hagree_low j (by omega)), hhd]
  -- the re-imported grayscale frame
  have hdropE : (overwrite bs hd.data_start_byte.toNat
      (bgrStream (apply_palette pal (reshapeRows hd.img_height_px.toNat
        hd.img_width_px.toNat ((bs.drop hd.file_size.toNat).take
          (hd.img_width_px.toNat * hd.img_height_px.toNat))))) ++
        tsBytes ts).drop hd.file_size.toNat = bs.drop hd.file_size.toNat ++
          tsBytes ts := by
    rw [List.drop_append_of_le_length (by rw [hover_len]; omega),
      overwrite_drop bs _ _ hd.file_size.toNat (by rw [hvalslen]; omega) (by omega)]
  have hsliceE : ((overwrite bs hd.data_start_byte.toNat
      (bgrStream (apply_palette pal (reshapeRows hd.img_height_px.toNat
        hd.img_width_px.toNat ((bs.drop hd.file_size.toNat).take
          (hd.img_width_px.toNat * hd.img_height_px.toNat))))) ++
        tsBytes ts).drop hd.file_size.toNat).take
          (hd.img_width_px.toNat * hd.img_height_px.toNat) =
      (bs.drop hd.file_size.toNat).take
        (hd.img_width_px.toNat * hd.img_height_px.toNat) := by
    rw [hdropE, List.take_append_of_le_length (by rw [List.length_drop]; omega)]
  have hgrayE : extract_grayscale_img (overwrite bs hd.data_start_byte.toNat
      (bgrStream (apply_palette pal (reshapeRows hd.img_height_px.toNat
        hd.img_width_px.toNat ((bs.drop hd.file_size.toNat).take
          (hd.img_width_px.toNat * hd.img_height_px.toNat))))) ++
        tsBytes ts) hd = some (reshapeRows hd.img_height_px.toNat
          hd.img_width_px.toNat ((bs.drop hd.file_size.toNat).take
            (hd.img_width_px.toNat * hd.img_height_px.toNat))) := by
    simp only [extract_grayscale_img]
    rw [hsliceE, if_pos hflatlen]
  -- the re-imported palette and telemetry
  have hpalE : extract_palette (overwrite bs hd.data_start_byte.toNat
      (bgrStream (apply_palette pal (reshapeRows hd.img_height_px.toNat
        hd.img_width_px.toNat ((bs.drop hd.file_size.toNat).take
          (hd.img_width_px.toNat * hd.img_height_px.toNat))))) ++
        tsBytes ts) (hd.file_size.toNat +
          hd.img_width_px.toNat * hd.img_height_px.toNat) = some pal := by
    rw [extract_palette_congr _ bs _
      (fun j hj1 hj2 => hagree_high j (by omega) (by omega)), hpal]
  have htelE : extract_temp_data (overwrite bs hd.data_start_byte.toNat
      (bgrStream (apply_palette pal (reshapeRows hd.img_height_px.toNat
        hd.img_width_px.toNat ((bs.drop hd.file_size.toNat).take
          (hd.img_width_px.toNat * hd.img_height_px.toNat))))) ++
        tsBytes ts) (hd.file_size.toNat +
          hd.img_width_px.toNat * hd.img_height_px.toNat + 512) = some tel := by
    rw [extract_temp_data_congr
      (fun j hj1 hj2 => hagree_high j (by omega) (by omega)), htel]
  -- the exported file now has a timestamp trailer
  obtain ⟨v, hv⟩ := Option.isSome_iff_exists.mp
    (read_int32_some (overwrite bs hd.data_start_byte.toNat
      (bgrStream (apply_palette pal (reshapeRows hd.img_height_px.toNat
        hd.img_width_px.toNat ((bs.drop hd.file_size.toNat).take
          (hd.img_width_px.toNat * hd.img_height_px.toNat))))) ++
        tsBytes ts) (hd.file_size.toNat +
          hd.img_width_px.toNat * hd.img_height_px.toNat + 512 + 26)
      (by rw [hElen]; omega))
  have htrE : extract_file_time (overwrite bs hd.data_start_byte.toNat
      (bgrStream (apply_palette pal (reshapeRows hd.img_height_px.toNat
        hd.img_width_px.toNat ((bs.drop hd.file_size.toNat).take
          (hd.img_width_px.toNat * hd.img_height_px.toNat))))) ++
        tsBytes ts) (hd.file_size.toNat +
          hd.img_width_px.toNat * hd.img_height_px.toNat + 512 + 26) =
      some (some v) := by
    unfold extract_file_time
    rw [if_pos (by rw [hElen]; omega), hv]
    rfl
  have hdecE := init_from_image_eq _ hd _ pal tel (some v) hhdE hgrayE hpalE
    htelE htrE
  refine ⟨⟨hd, reshapeRows hd.img_height_px.toNat hd.img_width_px.toNat
      ((bs.drop hd.file_size.toNat).take
        (hd.img_width_px.toNat * hd.img_height_px.toNat)), pal, tel, none⟩,
    ⟨hd, reshapeRows hd.img_height_px.toNat hd.img_width_px.toNat
      ((bs.drop hd.file_size.toNat).take
        (hd.img_width_px.toNat * hd.img_height_px.toNat)), pal, tel, some v⟩,
    hdec, ?_, rfl, rfl, rfl, rfl, rfl⟩
  rw [hE]
  exact hdecE

/-- Witness for C1 on the 1×1-pixel well-formed demo file. -/
theorem C1_export_reimport_witness :
    ∃ d d' : Decoded,
      init_from_image demoFile = some d ∧
      init_from_image (export_bmp demoFile demoHeader
        (apply_palette d.palette_rgb_np d.raw_img_np) d.palette_rgb_np false 1000)
        = some d' ∧
      d'.telemetry = d.telemetry ∧
      d'.raw_img_np = d.raw_img_np ∧
      d'.palette_rgb_np = d.palette_rgb_np ∧
      d.img_timestamp = none ∧
      d'.img_timestamp.isSome = true :=
  C1_export_reimport demoFile demoHeader 1000
    ⟨by decide, by decide, by decide, by decide, by decide⟩
